import Mathlib

/-!
Shallow embedding of the path-matching engine of
`internal/model/matcher.go` (the tilt repository), together with models of
the collaborators it uses: the `path/filepath` standard-library functions,
the `ospath.IsChild` helper (modelled from the spec, since its source is not
part of the studied tree) and the third-party `gobwas/glob` pattern
compiler.  The theorems at the end of the file settle the frozen claims
about this engine.
-/

/-- Errors returned through Go's `error` channel. -/
inductive GoError where
  | err (msg : String)
deriving DecidableEq, Repr

/-- Outcome of a Go computation that may `panic` and abort the process.
A `panicked` outcome is a process abort, not a recoverable returned error. -/
inductive Panics (α : Type) where
  | ok (a : α)
  | panicked (msg : String)
deriving DecidableEq, Repr

/-! ## Model of the third-party `gobwas/glob` library

Only what `NewGlobMatcher` observes is modelled: `Compile` parses a pattern
into tokens and reports a syntax error on an unterminated character class
(`Compile "["` fails, as in the library); `MustCompile` wraps `Compile` and
panics on error.  Character-class negation and ranges are stored as raw
characters: the claims only depend on the validation behaviour and on plain
`*` / `?` / literal matching, where the model agrees with the library
(no separators are configured by the caller, so `*` crosses `/`). -/

inductive GlobToken where
  | lit (c : Char)
  | any
  | star
  | cls (chars : List Char)
deriving DecidableEq, Repr

/-- Tokenizer for glob patterns.  `inClass` records whether the scanner is
inside a `[...]` character class, `acc` the class characters read so far
(reversed).  An input that ends inside a class is a syntax error, matching
the library's "unexpected end of input" on `Compile "["`. -/
def parseGlobAux : Bool → List Char → List Char → Except GoError (List GlobToken)
  | false, _, [] => .ok []
  | false, _, '*' :: rest => (parseGlobAux false [] rest).map (GlobToken.star :: ·)
  | false, _, '?' :: rest => (parseGlobAux false [] rest).map (GlobToken.any :: ·)
  | false, _, '[' :: rest => parseGlobAux true [] rest
  | false, _, c :: rest => (parseGlobAux false [] rest).map (GlobToken.lit c :: ·)
  | true, _, [] => .error (.err "unexpected end of input")
  | true, acc, ']' :: rest => (parseGlobAux false [] rest).map (GlobToken.cls acc.reverse :: ·)
  | true, acc, c :: rest => parseGlobAux true (c :: acc) rest

/-- A compiled glob pattern. -/
structure Glob where
  tokens : List GlobToken
deriving DecidableEq, Repr

/-- Model of `glob.Compile`: parse the pattern, failing on malformed input. -/
def glob.Compile (pattern : String) : Except GoError Glob :=
  (parseGlobAux false [] pattern.data).map Glob.mk

/-- Backtracking matcher for compiled glob tokens; `star` matches any
sequence of characters (the caller configures no separators). -/
def matchTokens : List GlobToken → List Char → Bool
  | [], [] => true
  | [], _ :: _ => false
  | .lit c :: ts, x :: xs => c == x && matchTokens ts xs
  | .lit _ :: _, [] => false
  | .any :: ts, _ :: xs => matchTokens ts xs
  | .any :: _, [] => false
  | .cls cs :: ts, x :: xs => cs.contains x && matchTokens ts xs
  | .cls _ :: _, [] => false
  | .star :: ts, [] => matchTokens ts []
  | .star :: ts, x :: xs => matchTokens ts (x :: xs) || matchTokens (.star :: ts) xs
termination_by ts cs => (ts.length, cs.length)

/-- Model of `glob.Glob.Match`. -/
def Glob.Match (g : Glob) (s : String) : Bool :=
  matchTokens g.tokens s.data

/-- Model of `glob.MustCompile`: panics (aborts the process) when the
pattern does not compile. -/
def glob.MustCompile (pattern : String) : Panics Glob :=
  match glob.Compile pattern with
  | .ok g => .ok g
  | .error (.err m) => .panicked m

/-! ## Model of the `path/filepath` standard library (Unix rules)

Only the functions `matcher.go` calls are modelled: `IsAbs`, `Clean` and
`Join`.  `Clean` follows Go's algorithm: split on separators, drop empty
and `.` elements, resolve `..` against the preceding element (dropping it
at the root), and re-join, yielding `/` or `.` when nothing remains. -/

/-- Model of `filepath.IsAbs`: the path begins with a separator. -/
def filepath.IsAbs (path : String) : Bool :=
  path.data.head? == some '/'

/-- Split a character list at `/` separators; `acc` holds the current
element's characters in reverse.  Agrees with splitting the string on
`"/"`. -/
def splitSegsAux : List Char → List Char → List String
  | acc, [] => [String.mk acc.reverse]
  | acc, '/' :: rest => String.mk acc.reverse :: splitSegsAux [] rest
  | acc, c :: rest => splitSegsAux (c :: acc) rest

/-- The `/`-separated elements of a path string. -/
def splitSegs (s : String) : List String :=
  splitSegsAux [] s.data

/-- Process the `/`-separated elements of a path, Go `filepath.Clean` style:
`stack` holds the output elements in reverse. -/
def cleanSegments (rooted : Bool) : List String → List String → List String
  | stack, [] => stack.reverse
  | stack, seg :: rest =>
    if seg = "" ∨ seg = "." then cleanSegments rooted stack rest
    else if seg = ".." then
      match stack with
      | [] => if rooted then cleanSegments rooted [] rest
              else cleanSegments rooted [".."] rest
      | top :: stackRest =>
        if top = ".." ∧ ¬ rooted then cleanSegments rooted (".." :: stack) rest
        else cleanSegments rooted stackRest rest
    else cleanSegments rooted (seg :: stack) rest

/-- Join path elements with single separators (Go `strings.Join` with `/`). -/
def joinSegs : List String → String
  | [] => ""
  | [a] => a
  | a :: rest => a ++ "/" ++ joinSegs rest

/-- Model of `filepath.Clean` for Unix paths. -/
def filepath.Clean (path : String) : String :=
  if path = "" then "."
  else
    let rooted := filepath.IsAbs path
    let segs := cleanSegments rooted [] (splitSegs path)
    if rooted then "/" ++ joinSegs segs
    else if segs.isEmpty then "." else joinSegs segs

/-- Model of `filepath.Join`: skip leading empty elements, join the rest
with separators and `Clean` the result; all-empty input yields `""`. -/
def filepath.Join (elems : List String) : String :=
  match elems.dropWhile (fun e => e == "") with
  | [] => ""
  | rest => filepath.Clean (joinSegs rest)

/-- The segment decomposition of a path after cleaning; the root path keeps
a single empty segment so that every absolute path extends it. -/
def pathSegments (p : String) : List String :=
  let c := filepath.Clean p
  if c = "/" then [""] else splitSegs c

/-- Modelled from the spec: `ospath.IsChild`, the path-resolution
collaborator whose source lies outside the studied tree.  Per the spec it
answers whether `f` equals `dir` or lies in the directory subtree rooted at
`dir`, where the descendant test "must respect path-segment boundaries"
(`/a/bc` is not under `/a/b`) "and must not depend on trailing separators";
an empty `dir` is the child of nothing. -/
def ospath.IsChild (dir f : String) : Bool :=
  if dir = "" then false
  else (pathSegments dir).isPrefixOf (pathSegments f)

/-! ## The matcher data model

Go's `PathMatcher` is an open interface; a value of interface type carries
a dynamic type that `NewCompositeMatcher` inspects with a type assertion.
The closed constructors below are the implementations defined in
`matcher.go`; `externMatcher` models a value of any other dynamic type
implementing the interfaces (the repository defines such implementations
outside the studied file). -/

/-- Modelled from the spec: an implementation of the open `PathMatcher` /
`PatternMatcher` interfaces defined outside `matcher.go` (for example the
ignore-pattern matchers the spec's pattern-export use case feeds into
composites).  It is a black-box `Matches` function plus an optional pattern
export, present exactly when the dynamic type also implements
`PatternMatcher`. -/
structure ExternMatcher where
  matchesFn : String → Bool → Bool × Option GoError
  patternsFn : Option (List String)

/-- The dynamic value of a Go `PathMatcher` interface variable: one
constructor per implementation in `matcher.go`, plus `externMatcher` for
implementations defined elsewhere. -/
inductive PathMatcher where
  | emptyMatcher : PathMatcher
  | fileMatcher (paths : List String) : PathMatcher
  | fileOrChildMatcher (paths : List String) : PathMatcher
  | globMatcher (globs : List Glob) : PathMatcher
  | compositePathMatcher (matchers : List PathMatcher) : PathMatcher
  | compositePatternMatcher (matchers : List PathMatcher)
      (patternMatchers : List PathMatcher) : PathMatcher
  | externMatcher (e : ExternMatcher) : PathMatcher

/-- The package-level `EmptyMatcher` value. -/
def EmptyMatcher : PathMatcher := PathMatcher.emptyMatcher

mutual

/-- The `Matches` method of each implementation in `matcher.go`.
`fileMatcher` is exact set membership; `fileOrChildMatcher` first tests
exact membership, then scans the set for an `ospath.IsChild` hit;
`globMatcher` scans its compiled globs; both composites iterate their
(path-matcher) constituent list. -/
def PathMatcher.Matches : PathMatcher → String → Bool → Bool × Option GoError
  | .emptyMatcher, _, _ => (false, none)
  | .fileMatcher paths, f, _ => (paths.contains f, none)
  | .fileOrChildMatcher paths, f, _ =>
    if paths.contains f then (true, none)
    else (paths.any (fun p => ospath.IsChild p f), none)
  | .globMatcher globs, f, _ => (globs.any (fun g => g.Match f), none)
  | .compositePathMatcher ms, f, isDir => matchesList ms f isDir
  | .compositePatternMatcher ms _, f, isDir => matchesList ms f isDir
  | .externMatcher e, f, isDir => e.matchesFn f isDir

/-- The loop body of `CompositePathMatcher.Matches`: first non-nil error is
returned (with `false`) and aborts the scan; first match returns
`(true, nil)`; otherwise the scan continues. -/
def matchesList : List PathMatcher → String → Bool → Bool × Option GoError
  | [], _, _ => (false, none)
  | m :: rest, f, isDir =>
    match PathMatcher.Matches m f isDir with
    | (_, some e) => (false, some e)
    | (true, none) => (true, none)
    | (false, none) => matchesList rest f isDir

end

mutual

/-- The `AsMatchPatterns` method, as a partial map over dynamic matcher
values: defined (`some`) exactly on the dynamic types implementing
`PatternMatcher`.  `CompositePatternMatcher.AsMatchPatterns` appends each
constituent pattern-matcher's own `AsMatchPatterns` output in order. -/
def asMatchPatternsOpt : PathMatcher → Option (List String)
  | .compositePatternMatcher _ pms => some (collectPatterns pms)
  | .externMatcher e => e.patternsFn
  | _ => none

/-- The append loop of `CompositePatternMatcher.AsMatchPatterns`.  (In Go
every element is statically a `PatternMatcher`; for dynamic values outside
that typing the model contributes nothing.) -/
def collectPatterns : List PathMatcher → List String
  | [] => []
  | m :: rest => (asMatchPatternsOpt m).getD [] ++ collectPatterns rest

end

/-- Whether a dynamic matcher value implements the `PatternMatcher`
interface (the capability C2 speaks about). -/
def isPatternMatcher (m : PathMatcher) : Bool :=
  (asMatchPatternsOpt m).isSome

/-- The type assertion `m.(CompositePatternMatcher)` performed by
`NewCompositeMatcher`: it tests for the one concrete type, not for the
`PatternMatcher` interface. -/
def isCompositePatternMatcher : PathMatcher → Bool
  | .compositePatternMatcher _ _ => true
  | _ => false

/-- `NewCompositeMatcher`: empty input yields `EmptyMatcher`; otherwise a
plain composite, upgraded to a `CompositePatternMatcher` (with the same
constituent list in both fields) exactly when every element passes the
`m.(CompositePatternMatcher)` type assertion. -/
def NewCompositeMatcher (matchers : List PathMatcher) : PathMatcher :=
  match matchers with
  | [] => EmptyMatcher
  | _ =>
    if matchers.all isCompositePatternMatcher then
      .compositePatternMatcher matchers matchers
    else
      .compositePathMatcher matchers

/-- The per-path resolution step of `NewRelativeFileOrChildMatcher`:
relative paths are joined onto `baseDir`, absolute paths are stored
unchanged. -/
def resolvePath (baseDir p : String) : String :=
  if filepath.IsAbs p then p else filepath.Join [baseDir, p]

/-- `NewRelativeFileOrChildMatcher`: resolve each path against `baseDir`
and collect the results as the matcher's path set. -/
def NewRelativeFileOrChildMatcher (baseDir : String) (paths : List String) : PathMatcher :=
  .fileOrChildMatcher (paths.map (resolvePath baseDir))

/-- `NewGlobMatcher` compiles every pattern with `glob.MustCompile`, so a
malformed pattern panics (aborting construction and the process) instead of
returning an error; the Go signature has no error result at all. -/
def NewGlobMatcher (globs : List String) : Panics PathMatcher :=
  match compileAll globs with
  | .ok gs => .ok (.globMatcher gs)
  | .panicked m => .panicked m
where
  compileAll : List String → Panics (List Glob)
    | [] => .ok []
    | g :: rest =>
      match glob.MustCompile g with
      | .panicked m => .panicked m
      | .ok cg =>
        match compileAll rest with
        | .panicked m => .panicked m
        | .ok gs => .ok (cg :: gs)

/-- A `PathSet`: declared trigger paths plus the base directory resolving
the relative ones. -/
structure PathSet where
  Paths : List String
  BaseDirectory : String

/-- `NewPathSet`. -/
def NewPathSet (paths : List String) (baseDir : String) : PathSet :=
  ⟨paths, baseDir⟩

/-- `PathSet.Empty`. -/
def PathSet.Empty (ps : PathSet) : Bool :=
  ps.Paths.length == 0

/-- The candidate loop of `PathSet.AnyMatch`: query each candidate in the
given order against the matcher with `isDir = false`; a non-nil error
returns immediately, a match returns `(true, path, nil)`. -/
def anyMatchLoop (matcher : PathMatcher) : List String → Bool × String × Option GoError
  | [] => (false, "", none)
  | p :: rest =>
    match matcher.Matches p false with
    | (_, some e) => (false, "", some e)
    | (true, none) => (true, p, none)
    | (false, none) => anyMatchLoop matcher rest

/-- `PathSet.AnyMatch`: build a transient `fileOrChildMatcher` from
`Paths`/`BaseDirectory` and scan the candidates in caller order. -/
def PathSet.AnyMatch (ps : PathSet) (paths : List String) : Bool × String × Option GoError :=
  anyMatchLoop (NewRelativeFileOrChildMatcher ps.BaseDirectory ps.Paths) paths

/-! ## Unfolding lemmas

The mutually recursive definitions above are compiled by well-founded
recursion, so their equations are exposed once as simp-friendly lemmas. -/

theorem matches_emptyMatcher (f : String) (d : Bool) :
    PathMatcher.emptyMatcher.Matches f d = (false, none) := by
  simp [PathMatcher.Matches]

theorem matches_fileMatcher (paths : List String) (f : String) (d : Bool) :
    (PathMatcher.fileMatcher paths).Matches f d = (paths.contains f, none) := by
  simp [PathMatcher.Matches]

theorem matches_fileOrChildMatcher (paths : List String) (f : String) (d : Bool) :
    (PathMatcher.fileOrChildMatcher paths).Matches f d =
      if paths.contains f then (true, none)
      else (paths.any (fun p => ospath.IsChild p f), none) := by
  simp [PathMatcher.Matches]

theorem matches_globMatcher (globs : List Glob) (f : String) (d : Bool) :
    (PathMatcher.globMatcher globs).Matches f d =
      (globs.any (fun g => g.Match f), none) := by
  simp [PathMatcher.Matches]

theorem matches_compositePathMatcher (ms : List PathMatcher) (f : String) (d : Bool) :
    (PathMatcher.compositePathMatcher ms).Matches f d = matchesList ms f d := by
  simp [PathMatcher.Matches]

theorem matches_compositePatternMatcher (ms pms : List PathMatcher) (f : String) (d : Bool) :
    (PathMatcher.compositePatternMatcher ms pms).Matches f d = matchesList ms f d := by
  simp [PathMatcher.Matches]

theorem matches_externMatcher (e : ExternMatcher) (f : String) (d : Bool) :
    (PathMatcher.externMatcher e).Matches f d = e.matchesFn f d := by
  simp [PathMatcher.Matches]

theorem matchesList_nil (f : String) (d : Bool) : matchesList [] f d = (false, none) := by
  simp [matchesList]

theorem matchesList_cons (m : PathMatcher) (rest : List PathMatcher) (f : String) (d : Bool) :
    matchesList (m :: rest) f d =
      match m.Matches f d with
      | (_, some e) => (false, some e)
      | (true, none) => (true, none)
      | (false, none) => matchesList rest f d := by
  simp [matchesList]

theorem asMatchPatternsOpt_compositePatternMatcher (ms pms : List PathMatcher) :
    asMatchPatternsOpt (PathMatcher.compositePatternMatcher ms pms) =
      some (collectPatterns pms) := by
  simp [asMatchPatternsOpt]

theorem asMatchPatternsOpt_externMatcher (e : ExternMatcher) :
    asMatchPatternsOpt (PathMatcher.externMatcher e) = e.patternsFn := by
  simp [asMatchPatternsOpt]

theorem asMatchPatternsOpt_compositePathMatcher (ms : List PathMatcher) :
    asMatchPatternsOpt (PathMatcher.compositePathMatcher ms) = none := by
  simp [asMatchPatternsOpt]

theorem collectPatterns_nil : collectPatterns [] = [] := by
  simp [collectPatterns]

theorem collectPatterns_cons (m : PathMatcher) (rest : List PathMatcher) :
    collectPatterns (m :: rest) =
      (asMatchPatternsOpt m).getD [] ++ collectPatterns rest := by
  simp [collectPatterns]

/-! ## Claim theorems -/

/-- C8: for every path `p` and every directory hint, `EmptyMatcher.Matches`
returns `(false, nil)`. -/
theorem emptyMatcher_matches_false (f : String) (d : Bool) :
    EmptyMatcher.Matches f d = (false, none) := by
  simpa [EmptyMatcher] using matches_emptyMatcher f d

/-- C7: composite construction on the empty matcher list returns
`EmptyMatcher` itself, and the result's `Matches` returns `(false, nil)` on
every query. -/
theorem newCompositeMatcher_nil_eq_emptyMatcher :
    NewCompositeMatcher [] = EmptyMatcher ∧
      ∀ (f : String) (d : Bool), (NewCompositeMatcher []).Matches f d = (false, none) := by
  refine ⟨rfl, fun f d => ?_⟩
  simpa [NewCompositeMatcher, EmptyMatcher] using matches_emptyMatcher f d

/-- C1: `NewGlobMatcher` does not return a recoverable error on the
malformed pattern `"["` — its Go signature has no error result, and the
`glob.MustCompile` call panics, aborting the process.  This contradicts the
claim (and the spec's normative requirement), which the spec itself records
as a defect of the reference behaviour. -/
theorem newGlobMatcher_panics_on_malformed_pattern :
    NewGlobMatcher ["["] = Panics.panicked "unexpected end of input" := rfl

/-- C2: `NewCompositeMatcher` probes each element with the type assertion
`m.(CompositePatternMatcher)` — the concrete composite type — instead of
the `PatternMatcher` interface.  A list whose elements all carry the
pattern capability but have a different dynamic type (modelled here by an
external `PatternMatcher` implementation) therefore yields the plain
`CompositePathMatcher`, with the pattern capability silently dropped,
contradicting the claim. -/
theorem newCompositeMatcher_drops_pattern_capability :
    isPatternMatcher
        (PathMatcher.externMatcher ⟨fun _ _ => (false, none), some ["vendor"]⟩) = true ∧
    NewCompositeMatcher
        [PathMatcher.externMatcher ⟨fun _ _ => (false, none), some ["vendor"]⟩,
         PathMatcher.externMatcher ⟨fun _ _ => (false, none), some ["vendor"]⟩] =
      PathMatcher.compositePathMatcher
        [PathMatcher.externMatcher ⟨fun _ _ => (false, none), some ["vendor"]⟩,
         PathMatcher.externMatcher ⟨fun _ _ => (false, none), some ["vendor"]⟩] ∧
    isPatternMatcher
        (NewCompositeMatcher
          [PathMatcher.externMatcher ⟨fun _ _ => (false, none), some ["vendor"]⟩,
           PathMatcher.externMatcher ⟨fun _ _ => (false, none), some ["vendor"]⟩]) = false := by
  refine ⟨?_, rfl, ?_⟩ <;>
    simp [isPatternMatcher, asMatchPatternsOpt_externMatcher, NewCompositeMatcher,
      isCompositePatternMatcher, asMatchPatternsOpt_compositePathMatcher]

/-- The append loop of `AsMatchPatterns` flattens the per-constituent
pattern lists in order. -/
theorem collectPatterns_eq_flatten (pms : List PathMatcher) :
    collectPatterns pms =
      (pms.map (fun m => (asMatchPatternsOpt m).getD [])).flatten := by
  induction pms with
  | nil => simp [collectPatterns_nil]
  | cons m rest ih => simp [collectPatterns_cons, ih]

/-- C6: `CompositePatternMatcher.AsMatchPatterns` is exactly the ordered,
flat concatenation of each constituent's own `AsMatchPatterns` output,
with no deduplication (flattening keeps duplicates and order). -/
theorem compositePatternMatcher_asMatchPatterns_concat (ms pms : List PathMatcher) :
    asMatchPatternsOpt (PathMatcher.compositePatternMatcher ms pms) =
      some ((pms.map (fun m => (asMatchPatternsOpt m).getD [])).flatten) := by
  rw [asMatchPatternsOpt_compositePatternMatcher, collectPatterns_eq_flatten]

/-- Constituents that return `(false, nil)` are scanned past without
affecting the composite result. -/
theorem matchesList_append_skip (pre rest : List PathMatcher) (f : String) (d : Bool)
    (h : ∀ x ∈ pre, x.Matches f d = (false, none)) :
    matchesList (pre ++ rest) f d = matchesList rest f d := by
  induction pre with
  | nil => rfl
  | cons x xs ih =>
    rw [List.cons_append, matchesList_cons, h x (by simp)]
    exact ih (fun y hy => h y (by simp [hy]))

/-- C5: `CompositePathMatcher.Matches` is a short-circuit OR in
construction order.  After any run of `(false, nil)` constituents, a
matching constituent decides the result `(true, nil)` and an erroring
constituent decides the result `(false, err)` — in both cases whatever
comes later is never consulted (the result is the same for every `post`) —
and if every constituent returns `(false, nil)` the composite returns
`(false, nil)`. -/
theorem compositePathMatcher_matches_shortcircuit :
    (∀ (pre : List PathMatcher) (m : PathMatcher) (post : List PathMatcher)
        (f : String) (d : Bool),
        (∀ x ∈ pre, x.Matches f d = (false, none)) →
        m.Matches f d = (true, none) →
        (PathMatcher.compositePathMatcher (pre ++ m :: post)).Matches f d = (true, none)) ∧
    (∀ (pre : List PathMatcher) (m : PathMatcher) (post : List PathMatcher)
        (f : String) (d : Bool) (e : GoError),
        (∀ x ∈ pre, x.Matches f d = (false, none)) →
        (m.Matches f d).2 = some e →
        (PathMatcher.compositePathMatcher (pre ++ m :: post)).Matches f d = (false, some e)) ∧
    (∀ (ms : List PathMatcher) (f : String) (d : Bool),
        (∀ x ∈ ms, x.Matches f d = (false, none)) →
        (PathMatcher.compositePathMatcher ms).Matches f d = (false, none)) := by
  refine ⟨?_, ?_, ?_⟩
  · intro pre m post f d hpre hm
    rw [matches_compositePathMatcher, matchesList_append_skip pre _ f d hpre,
      matchesList_cons, hm]
  · intro pre m post f d e hpre hm
    rw [matches_compositePathMatcher, matchesList_append_skip pre _ f d hpre,
      matchesList_cons]
    rcases hM : m.Matches f d with ⟨b, o⟩
    rw [hM] at hm
    simp only at hm
    subst hm
    cases b <;> rfl
  · intro ms f d h
    have hskip := matchesList_append_skip ms [] f d h
    rw [List.append_nil] at hskip
    rw [matches_compositePathMatcher, hskip, matchesList_nil]

/-- Witness for C5 at concrete composites: a match hides a later error, an
error hides a later match, and all-false constituents give `(false, nil)`. -/
theorem compositePathMatcher_matches_shortcircuit_witness :
    ((PathMatcher.compositePathMatcher
        [PathMatcher.emptyMatcher,
         PathMatcher.externMatcher ⟨fun _ _ => (true, none), none⟩,
         PathMatcher.externMatcher ⟨fun _ _ => (false, some (.err "boom")), none⟩]).Matches
        "/f" false = (true, none)) ∧
    ((PathMatcher.compositePathMatcher
        [PathMatcher.emptyMatcher,
         PathMatcher.externMatcher ⟨fun _ _ => (false, some (.err "boom")), none⟩,
         PathMatcher.externMatcher ⟨fun _ _ => (true, none), none⟩]).Matches
        "/f" false = (false, some (.err "boom"))) ∧
    ((PathMatcher.compositePathMatcher
        [PathMatcher.emptyMatcher, PathMatcher.emptyMatcher]).Matches
        "/f" false = (false, none)) := by
  refine ⟨?_, ?_, ?_⟩
  · exact compositePathMatcher_matches_shortcircuit.1 [PathMatcher.emptyMatcher]
      (PathMatcher.externMatcher ⟨fun _ _ => (true, none), none⟩)
      [PathMatcher.externMatcher ⟨fun _ _ => (false, some (.err "boom")), none⟩] "/f" false
      (by intro x hx; simp only [List.mem_singleton] at hx; subst hx
          exact matches_emptyMatcher _ _)
      (by simp [matches_externMatcher])
  · exact compositePathMatcher_matches_shortcircuit.2.1 [PathMatcher.emptyMatcher]
      (PathMatcher.externMatcher ⟨fun _ _ => (false, some (.err "boom")), none⟩)
      [PathMatcher.externMatcher ⟨fun _ _ => (true, none), none⟩] "/f" false (.err "boom")
      (by intro x hx; simp only [List.mem_singleton] at hx; subst hx
          exact matches_emptyMatcher _ _)
      (by simp [matches_externMatcher])
  · exact compositePathMatcher_matches_shortcircuit.2.2
      [PathMatcher.emptyMatcher, PathMatcher.emptyMatcher] "/f" false
      (by intro x hx
          have hx' : x = PathMatcher.emptyMatcher := by
            rcases List.mem_cons.mp hx with h | h
            · exact h
            · simpa using h
          subst hx'; exact matches_emptyMatcher _ _)

/-- A `fileOrChildMatcher` populates the error channel only with `nil`:
both branches of its `Matches` body return a `nil` error. -/
theorem fileOrChildMatcher_error_none (paths : List String) (f : String) (d : Bool) :
    ((PathMatcher.fileOrChildMatcher paths).Matches f d).2 = none := by
  rw [matches_fileOrChildMatcher]
  split <;> rfl

/-- For a matcher that never errors, the candidate loop of `AnyMatch`
returns the first candidate (in list order) the matcher accepts. -/
theorem anyMatchLoop_eq_find (matcher : PathMatcher)
    (hne : ∀ p, (matcher.Matches p false).2 = none) (cands : List String) :
    anyMatchLoop matcher cands =
      match cands.find? (fun c => (matcher.Matches c false).1) with
      | some c => (true, c, none)
      | none => (false, "", none) := by
  induction cands with
  | nil => rfl
  | cons c rest ih =>
    rcases hM : matcher.Matches c false with ⟨b, o⟩
    have ho : o = none := by
      have hc := hne c
      rw [hM] at hc
      exact hc
    subst ho
    cases b with
    | true =>
      rw [anyMatchLoop, hM, List.find?_cons_of_pos]
      rw [hM]
    | false =>
      rw [anyMatchLoop, hM, ih, List.find?_cons_of_neg]
      rw [hM]
      simp

/-- C4: `PathSet.AnyMatch` scans the candidates in the caller-supplied
order against the `fileOrChildMatcher` built from `Paths`/`BaseDirectory`,
returning `(true, c, nil)` for the first candidate `c` that matches and
`(false, "", nil)` when none does.  (The built matcher never produces an
error, so the code's error-propagation branch is vacuously respected: the
error component is always `nil`, see C9.) -/
theorem pathSet_anyMatch_first_candidate (ps : PathSet) (cands : List String) :
    ps.AnyMatch cands =
      match cands.find? (fun c =>
          ((NewRelativeFileOrChildMatcher ps.BaseDirectory ps.Paths).Matches c false).1) with
      | some c => (true, c, none)
      | none => (false, "", none) :=
  anyMatchLoop_eq_find _ (fun p => fileOrChildMatcher_error_none _ p false) cands

/-- C9: `PathSet.AnyMatch` never returns a non-nil error, because the
underlying `fileOrChildMatcher.Matches` returns a `nil` error on every
input, so the loop's error branch is unreachable. -/
theorem pathSet_anyMatch_never_errors :
    (∀ (paths : List String) (f : String) (d : Bool),
        ((PathMatcher.fileOrChildMatcher paths).Matches f d).2 = none) ∧
    ∀ (ps : PathSet) (cands : List String), (ps.AnyMatch cands).2.2 = none := by
  refine ⟨fileOrChildMatcher_error_none, fun ps cands => ?_⟩
  have hfind := anyMatchLoop_eq_find
    (NewRelativeFileOrChildMatcher ps.BaseDirectory ps.Paths)
    (fun p => fileOrChildMatcher_error_none _ p false) cands
  simp only [PathSet.AnyMatch]
  rw [hfind]
  split <;> rfl

/-- An absolute path is nonempty. -/
theorem isAbs_ne_empty {p : String} (h : filepath.IsAbs p = true) : p ≠ "" := by
  intro he
  subst he
  simp [filepath.IsAbs] at h

/-- Appending anything to an absolute path keeps it absolute. -/
theorem isAbs_append {b : String} (h : filepath.IsAbs b = true) (t : String) :
    filepath.IsAbs (b ++ t) = true := by
  simp only [filepath.IsAbs, beq_iff_eq] at h ⊢
  rcases hd : b.data with _ | ⟨c, cs⟩
  · rw [hd] at h; simp at h
  · rw [hd] at h
    simp only [List.head?] at h
    rw [String.data_append, hd]
    simpa using h

/-- A rooted string stays absolute. -/
theorem slash_append_isAbs (t : String) : filepath.IsAbs ("/" ++ t) = true := by
  have h : filepath.IsAbs "/" = true := by decide
  exact isAbs_append h t

/-- Cleaning preserves absoluteness. -/
theorem clean_isAbs {s : String} (h : filepath.IsAbs s = true) :
    filepath.IsAbs (filepath.Clean s) = true := by
  rw [filepath.Clean, if_neg (isAbs_ne_empty h)]
  simp only [h, if_pos]
  exact slash_append_isAbs _

/-- With an absolute base directory, every resolved member path is
nonempty (absolute members are themselves nonempty; relative members join
onto the nonempty base). -/
theorem resolvePath_ne_empty (b x : String) (hb : filepath.IsAbs b = true) :
    resolvePath b x ≠ "" := by
  rw [resolvePath]
  split
  · exact isAbs_ne_empty (by assumption)
  · have hbne : (b == "") = false := beq_eq_false_iff_ne.mpr (isAbs_ne_empty hb)
    rw [filepath.Join]
    simp only [List.dropWhile_cons, hbne]
    have habs : filepath.IsAbs (filepath.Clean (joinSegs [b, x])) = true := by
      have hj : joinSegs [b, x] = b ++ "/" ++ x := rfl
      rw [hj]
      exact clean_isAbs (isAbs_append (isAbs_append hb "/") x)
    exact isAbs_ne_empty habs

/-- C3: a `fileOrChildMatcher` built from a base directory and a path list
matches `f` exactly when `f` equals a resolved member or lies in the
subtree below a resolved member, the subtree test being taken on cleaned
path segments — so it respects segment boundaries (no shared-prefix
siblings) and ignores trailing separators. -/
theorem fileOrChildMatcher_matches_iff (base f : String) (paths : List String) (isDir : Bool)
    (hbase : filepath.IsAbs base = true) :
    ((NewRelativeFileOrChildMatcher base paths).Matches f isDir).1 = true ↔
      ∃ p ∈ paths.map (resolvePath base),
        f = p ∨ (pathSegments p).isPrefixOf (pathSegments f) = true := by
  have hne : ∀ p ∈ paths.map (resolvePath base), p ≠ "" := by
    intro p hp
    rcases List.mem_map.mp hp with ⟨x, _, hx⟩
    subst hx
    exact resolvePath_ne_empty base x hbase
  have hchild_iff : ∀ p ∈ paths.map (resolvePath base),
      (ospath.IsChild p f = true ↔ (pathSegments p).isPrefixOf (pathSegments f) = true) := by
    intro p hp
    rw [ospath.IsChild, if_neg (hne p hp)]
  have key : ((NewRelativeFileOrChildMatcher base paths).Matches f isDir).1 =
      ((paths.map (resolvePath base)).contains f ||
        (paths.map (resolvePath base)).any (fun p => ospath.IsChild p f)) := by
    rw [NewRelativeFileOrChildMatcher, matches_fileOrChildMatcher]
    cases hc : (paths.map (resolvePath base)).contains f with
    | true => simp
    | false => simp
  rw [key, Bool.or_eq_true, List.any_eq_true]
  have hcm : (paths.map (resolvePath base)).contains f = true ↔
      f ∈ paths.map (resolvePath base) := List.elem_iff
  constructor
  · rintro (hmem | ⟨p, hp, hchild⟩)
    · exact ⟨f, hcm.mp hmem, Or.inl rfl⟩
    · exact ⟨p, hp, Or.inr ((hchild_iff p hp).mp hchild)⟩
  · rintro ⟨p, hp, hfp | hpre⟩
    · exact Or.inl (hcm.mpr (hfp ▸ hp))
    · exact Or.inr ⟨p, hp, (hchild_iff p hp).mpr hpre⟩

/-- Witness for C3 at the spec's own example: base `/r`, member `baz`,
queried with the descendant `/r/baz/qux` and the shared-prefix sibling
`/r/bazinga`. -/
theorem fileOrChildMatcher_matches_iff_witness :
    (((NewRelativeFileOrChildMatcher "/r" ["baz"]).Matches "/r/baz/qux" false).1 = true ↔
      ∃ p ∈ ["baz"].map (resolvePath "/r"),
        "/r/baz/qux" = p ∨ (pathSegments p).isPrefixOf (pathSegments "/r/baz/qux") = true) ∧
    (((NewRelativeFileOrChildMatcher "/r" ["baz"]).Matches "/r/bazinga" false).1 = true ↔
      ∃ p ∈ ["baz"].map (resolvePath "/r"),
        "/r/bazinga" = p ∨ (pathSegments p).isPrefixOf (pathSegments "/r/bazinga") = true) :=
  ⟨fileOrChildMatcher_matches_iff "/r" "/r/baz/qux" ["baz"] false (by decide),
   fileOrChildMatcher_matches_iff "/r" "/r/bazinga" ["baz"] false (by decide)⟩

/-- The spec's three concrete answers for the `/r` + `baz` matcher,
evaluated directly on the embedded code: exact member, true descendant,
and shared-prefix sibling. -/
theorem fileOrChildMatcher_boundary_examples :
    ((NewRelativeFileOrChildMatcher "/r" ["baz"]).Matches "/r/baz" false = (true, none)) ∧
    ((NewRelativeFileOrChildMatcher "/r" ["baz"]).Matches "/r/baz/qux" false = (true, none)) ∧
    ((NewRelativeFileOrChildMatcher "/r" ["baz"]).Matches "/r/bazinga" false = (false, none)) := by
  refine ⟨?_, ?_, ?_⟩ <;>
    · rw [NewRelativeFileOrChildMatcher, matches_fileOrChildMatcher]
      decide

/-- Identity resolution for absolute members. -/
theorem resolvePath_abs (b p : String) (h : filepath.IsAbs p = true) :
    resolvePath b p = p := by
  simp [resolvePath, h]

/-- C10: `NewRelativeFileOrChildMatcher` stores absolute input paths
unchanged — the base directory is never applied to them — so two matchers
built from the same all-absolute path list and different base directories
are the same value and agree on every query. -/
theorem newRelativeFileOrChildMatcher_ignores_base_for_abs (paths : List String)
    (h : ∀ p ∈ paths, filepath.IsAbs p = true) :
    (∀ b, NewRelativeFileOrChildMatcher b paths = PathMatcher.fileOrChildMatcher paths) ∧
    ∀ (b1 b2 f : String) (d : Bool),
      (NewRelativeFileOrChildMatcher b1 paths).Matches f d =
        (NewRelativeFileOrChildMatcher b2 paths).Matches f d := by
  have hmap : ∀ b, paths.map (resolvePath b) = paths := by
    intro b
    induction paths with
    | nil => rfl
    | cons p rest ih =>
      rw [List.map_cons, resolvePath_abs b p (h p (by simp)),
        ih (fun q hq => h q (by simp [hq]))]
  refine ⟨fun b => ?_, fun b1 b2 f d => ?_⟩
  · rw [NewRelativeFileOrChildMatcher, hmap]
  · rw [NewRelativeFileOrChildMatcher, NewRelativeFileOrChildMatcher, hmap, hmap]

/-- Witness for C10 on the all-absolute list `["/a/b", "/c"]` and the two
base directories `/r` and `/other`. -/
theorem newRelativeFileOrChildMatcher_ignores_base_for_abs_witness :
    NewRelativeFileOrChildMatcher "/r" ["/a/b", "/c"] =
      PathMatcher.fileOrChildMatcher ["/a/b", "/c"] ∧
    (NewRelativeFileOrChildMatcher "/r" ["/a/b", "/c"]).Matches "/a/b/x" false =
      (NewRelativeFileOrChildMatcher "/other" ["/a/b", "/c"]).Matches "/a/b/x" false :=
  ⟨(newRelativeFileOrChildMatcher_ignores_base_for_abs ["/a/b", "/c"] (by decide)).1 "/r",
   (newRelativeFileOrChildMatcher_ignores_base_for_abs ["/a/b", "/c"]
      (by decide)).2 "/r" "/other" "/a/b/x" false⟩
